import Mathlib

/-!
Shallow embedding of `src/pushhosts.py` (PushHosts v1.2): a CrowdStrike
RTR automation script that pushes a HOSTS file to Windows endpoints.
The embedding models the pure decision logic of `main()`:

* case-insensitive string handling (Python `str.lower` / `str.upper`);
* the CID sanity check (lines 104-109), including the `[:-3]` truncation
  of the CCID returned by the sensor-download API;
* the put-file resolution loop (lines 113-127);
* the host-enumeration pagination loop (lines 139-177);
* the batch RTR command sequence (lines 188-255), with its per-step
  status checks and fatal error messages.

Network effects are modelled by explicit inputs: the list of inventory
pages the API would serve, the list of staged put files, and an executor
function giving the response to the i-th remote command call.  The trace
of externally visible actions (page requests, batch initiation, issued
commands) is returned alongside the outcome so that claims of the form
"aborts before X happens" are expressible.
-/

namespace PushHosts

/-- Python `str.lower()` (per-character lowercasing, as used on ASCII
hashes, CIDs and filenames in the script). -/
def strLower (s : String) : String := String.mk (s.data.map Char.toLower)

/-- Python `str.upper()` (used only inside the CID mismatch message). -/
def strUpper (s : String) : String := String.mk (s.data.map Char.toUpper)

/-- Python `s[:-3]` — drop the last three characters (line 106 truncates
the checksum suffix off the CCID). -/
def cidTrunc (s : String) : String := String.mk (s.data.take (s.data.length - 3))

/-- The condition of line 107:
`args.scope.lower() == "cid" and args.scope_id.lower() != current_cid.lower()`
where `current_cid` is the API CCID with its last three characters
removed (line 106). -/
def cidCheck (scope scope_id ccid : String) : Bool :=
  strLower scope == "cid" && !(strLower scope_id == strLower (cidTrunc ccid))

/-- The fatal message of lines 108-109. -/
def cidMismatchMsg (scope_id current_cid : String) : String :=
  "The entered CID [" ++ strUpper scope_id ++ "] does not match the API client CID ["
    ++ strUpper current_cid ++ "]."

/-- A staged "put" file as returned by `get_put_files_v2` (only the
fields the script reads for its decisions). -/
structure PutFile where
  sha256 : String
  name : String
deriving Repr, DecidableEq

/-- The per-file test of line 120: `put_file['sha256'].lower() == args.hosts_file.lower()`. -/
def hashMatch (hash : String) (f : PutFile) : Bool :=
  strLower f.sha256 == strLower hash

/-- The put-file resolution loop of lines 117-123: scan all staged files,
remember the name of every file whose sha256 matches case-insensitively
(a later match overwrites an earlier one); `none` models `found == False`. -/
def resolve (files : List PutFile) (hash : String) : Option String :=
  files.foldl (fun acc f => if hashMatch hash f then some f.name else acc) none

/-- The fatal message of lines 126-127. -/
def hashNotFoundMsg (hash : String) : String :=
  "The entered HOSTS file hash [" ++ strLower hash ++ "] does not exist."

/-- One inventory-API page response: the continuation offset, the host id
resources, and the reported pagination total. -/
structure Page where
  offset : String
  resources : List String
  total : Nat
deriving Repr, DecidableEq

/-- A page request as issued by the loop body (offset passed, `limit`
parameter). -/
structure PageReq where
  offset : String
  limit : Nat
deriving Repr, DecidableEq

/-- Line 143: `batch_size = 5000`, the `limit` passed to every page
request. -/
def batchSize : Nat := 5000

/-- The pagination loop of lines 139-175 over the (finite) list of pages
the API will serve, threading the current offset (initially `""`, line
139) and the accumulated host ids.  Each iteration issues one request
with limit `batchSize`, appends the page's resources, and breaks as soon
as the accumulated count reaches the page's reported total (line 174).
`none` models the API failing to serve a needed page (the supplied page
list is exhausted before the loop's break condition holds). -/
def runEnum : List Page → String → List String → Option (List String × List PageReq)
  | [], _, _ => none
  | p :: rest, off, acc =>
    let req : PageReq := ⟨off, batchSize⟩
    let acc' := acc ++ p.resources
    if p.total ≤ acc'.length then
      some (acc', [req])
    else
      match runEnum rest p.offset acc' with
      | none => none
      | some (hs, reqs) => some (hs, req :: reqs)

/-- Sum of the resource counts of a list of pages (the accumulated host
count after consuming those pages). -/
def sumLen (pages : List Page) : Nat := (pages.map (fun p => p.resources.length)).sum

/-- An aggregate RTR response: the fields read on lines 203-255
(`response["status_code"]` and `response.text`). -/
structure Resp where
  status_code : Nat
  text : String
deriving Repr, DecidableEq

/-- One issued batch command: whether it went through the admin endpoint
(`batch_admin_command`) or the active-responder endpoint, its
`base_command`, and its `command_string`. -/
structure Cmd where
  admin : Bool
  base : String
  command_string : String
deriving Repr, DecidableEq

/-- A UTC timestamp, the data `datetime.datetime.utcnow()` feeds into
`strftime` on line 208. -/
structure Timestamp where
  year : Nat
  month : Nat
  day : Nat
  hour : Nat
  minute : Nat
  second : Nat
deriving Repr, DecidableEq

/-- Two-digit zero padding (strftime `%m`, `%d`, `%H`, `%M`, `%S`). -/
def pad2 (n : Nat) : String := if n < 10 then "0" ++ toString n else toString n

/-- Four-digit zero padding (strftime `%Y`). -/
def pad4 (n : Nat) : String :=
  if n < 10 then "000" ++ toString n
  else if n < 100 then "00" ++ toString n
  else if n < 1000 then "0" ++ toString n
  else toString n

/-- strftime `"%Y-%m-%d-%H-%M-%S"` (the variable part of the format
string on line 208). -/
def fmtTimestamp (t : Timestamp) : String :=
  pad4 t.year ++ "-" ++ pad2 t.month ++ "-" ++ pad2 t.day ++ "-"
    ++ pad2 t.hour ++ "-" ++ pad2 t.minute ++ "-" ++ pad2 t.second

/-- The fatal message of the per-command error branches
(`f"Error, Response: {response['status_code']} - {response.text}"`). -/
def errMsg (r : Resp) : String :=
  "Error, Response: " ++ toString r.status_code ++ " - " ++ r.text

/-- Step: `cd c:\windows\system32\drivers\etc` (lines 199-202; Python
leaves the backslashes literal since `\w`, `\s`, `\d`, `\e` are not
escapes). -/
def cdCmd : Cmd := ⟨false, "cd", "cd c:\\windows\\system32\\drivers\\etc"⟩

/-- Step: `mv hosts hosts.<datestring>` where
`datestring = strftime("%Y-%m-%d-%H-%M-%S.backup")` (lines 208-212). -/
def mvBackupCmd (t : Timestamp) : Cmd :=
  ⟨false, "mv", "mv hosts hosts." ++ (fmtTimestamp t ++ ".backup")⟩

/-- Step: `put <filename>` via the admin endpoint (lines 218-221). -/
def putCmd (filename : String) : Cmd := ⟨true, "put", "put " ++ filename⟩

/-- Conditional step: `mv <filename> hosts` (lines 227-231). -/
def mvInPlaceCmd (filename : String) : Cmd :=
  ⟨false, "mv", "mv " ++ filename ++ " hosts"⟩

/-- Step: the ICACLS permission grant via the admin endpoint (lines
237-240). -/
def icaclsCmd : Cmd :=
  ⟨true, "run", "run ICACLS c:\\windows\\system32\\drivers\\etc\\hosts /grant Users:RX"⟩

/-- Step: `run ipconfig /flushdns` via the admin endpoint (lines 248-251). -/
def flushDnsCmd : Cmd := ⟨true, "run", "run ipconfig /flushdns"⟩

/-- The last two steps (ICACLS grant then flushdns, lines 237-255),
shared by the two branches of the conditional rename; `pre` is the trace
of already-issued commands and `i` the index of the next executor call. -/
def tailSteps (pre : List Cmd) (i : Nat) (exec : Nat → Resp) : List Cmd × Option String :=
  let r4 := exec i
  if r4.status_code = 201 then
    let r5 := exec (i + 1)
    if r5.status_code = 201 then
      (pre ++ [icaclsCmd, flushDnsCmd], none)
    else
      (pre ++ [icaclsCmd, flushDnsCmd], some (errMsg r5))
  else
    (pre ++ [icaclsCmd], some (errMsg r4))

/-- The batch command sequence of lines 199-255: issue each command in
order, check `status_code == 201` after each, and abort with the fatal
`errMsg` on the first non-201 response.  `exec i` is the aggregate
response to the i-th issued command.  Returns the trace of issued
commands and `none` on full success, or `some fatalMessage`. -/
def batchRun (filename : String) (now : Timestamp) (exec : Nat → Resp) :
    List Cmd × Option String :=
  let r0 := exec 0
  if r0.status_code = 201 then
    let r1 := exec 1
    if r1.status_code = 201 then
      let r2 := exec 2
      if r2.status_code = 201 then
        if strLower filename ≠ "hosts" then
          let r3 := exec 3
          if r3.status_code = 201 then
            tailSteps [cdCmd, mvBackupCmd now, putCmd filename, mvInPlaceCmd filename] 4 exec
          else
            ([cdCmd, mvBackupCmd now, putCmd filename, mvInPlaceCmd filename],
              some (errMsg r3))
        else
          tailSteps [cdCmd, mvBackupCmd now, putCmd filename] 3 exec
      else ([cdCmd, mvBackupCmd now, putCmd filename], some (errMsg r2))
    else ([cdCmd, mvBackupCmd now], some (errMsg r1))
  else ([cdCmd], some (errMsg r0))

/-- The command sequence as the specification states it: cd, rename to
backup, put, the rename-into-place exactly when the resolved name
differs (case-insensitively) from `hosts`, then ICACLS grant and DNS
flush. -/
def specSeq (filename : String) (now : Timestamp) : List Cmd :=
  [cdCmd, mvBackupCmd now, putCmd filename]
    ++ (if strLower filename ≠ "hosts" then [mvInPlaceCmd filename] else [])
    ++ [icaclsCmd, flushDnsCmd]

/-- Generic guarded sequencer: issue the commands of `l` in order
starting at call index `i`, stopping fatally at the first non-201
response. -/
def runSeq (exec : Nat → Resp) : List Cmd → Nat → List Cmd × Option String
  | [], _ => ([], none)
  | c :: cs, i =>
    if (exec i).status_code = 201 then
      let res := runSeq exec cs (i + 1)
      (c :: res.1, res.2)
    else ([c], some (errMsg (exec i)))

/-- The command-line arguments `main()` reads for its decisions. -/
structure Args where
  scope : String
  scope_id : String
  hosts_file : String

/-- The external world `main()` interacts with: the CCID resource the
sensor-download API returns, the staged put files, the inventory pages
the device/group API will serve, the batch id returned by
`batch_init_sessions`, and the command executor. -/
structure ApiModel where
  ccid : String
  putFiles : List PutFile
  pages : List Page
  batch_id : String
  exec : Nat → Resp

/-- An externally visible action of the run. -/
inductive Event where
  | pageReq (r : PageReq)
  | batchInit (hosts : List String)
  | cmd (c : Cmd)
deriving Repr, DecidableEq

/-- The fatal message of line 194. -/
def batchInitFailMsg : String := "Unable to initiate RTR session with hosts."

/-- `main()` (lines 95-259) as a function from the arguments and the
modelled API world to the trace of externally visible actions and the
outcome (`none` = normal completion, `some msg` = `SystemExit(msg)`).
The page-exhaustion case of `runEnum` (an artifact of modelling the
page stream as a finite list) is mapped to a distinguished abort. -/
def mainRun (args : Args) (api : ApiModel) (now : Timestamp) : List Event × Option String :=
  if cidCheck args.scope args.scope_id api.ccid then
    ([], some (cidMismatchMsg args.scope_id (cidTrunc api.ccid)))
  else
    match resolve api.putFiles args.hosts_file with
    | none => ([], some (hashNotFoundMsg args.hosts_file))
    | some filename =>
      match runEnum api.pages "" [] with
      | none => ([], some "page stream exhausted")
      | some (hosts, reqs) =>
        let enumEvents := reqs.map Event.pageReq
        if api.batch_id = "" then
          (enumEvents ++ [Event.batchInit hosts], some batchInitFailMsg)
        else
          let res := batchRun filename now api.exec
          (enumEvents ++ [Event.batchInit hosts] ++ res.1.map Event.cmd, res.2)

/-- Well-behaved page service: every page reports total `T` and returns
exactly `min batchSize (T - done)` host ids, `done` being the count
already accumulated; further pages are only constrained while the loop
still needs them. -/
def goodServe (T : Nat) : Nat → List Page → Bool
  | _, [] => false
  | done, p :: rest =>
    p.total == T && p.resources.length == min batchSize (T - done)
      && (decide (T ≤ done + p.resources.length)
          || goodServe T (done + p.resources.length) rest)

/-! ### Concrete fixtures used by witnesses and counterexamples -/

/-- An executor answering 201 to every command. -/
def okExec : Nat → Resp := fun _ => ⟨201, "ok"⟩

/-- An executor failing on the third call (index 2) with a 500. -/
def failExec : Nat → Resp := fun i => if i = 2 then ⟨500, "boom"⟩ else ⟨201, "ok"⟩

/-- A fixed UTC timestamp. -/
def t0 : Timestamp := ⟨2026, 10, 12, 0, 0, 0⟩

/-- A single full page: total 2, two host ids. -/
def pagesW1 : List Page := [⟨"", ["h1", "h2"], 2⟩]

/-- Two half-full pages: total 2, one host id each. -/
def pagesW2 : List Page := [⟨"a", ["h1"], 2⟩, ⟨"b", ["h2"], 2⟩]

/-- One staged file whose hash matches nothing we ask for. -/
def filesW4 : List PutFile := [⟨"CAFE", "other"⟩]

/-- Two staged files with case-variant spellings of the same hash. -/
def filesW9 : List PutFile := [⟨"AA", "f1"⟩, ⟨"aa", "f2"⟩]

/-- Arguments: cid scope, truncated lowercase CID, unmatched hash. -/
def argsW4 : Args := ⟨"cid", "abc", "beef"⟩

/-- API world for the unresolved-hash run. -/
def apiW4 : ApiModel := ⟨"ABC123", filesW4, [⟨"", ["h"], 1⟩], "B", okExec⟩

/-- Arguments with a scope_id matching no CID. -/
def argsW5 : Args := ⟨"cid", "WRONG", "x"⟩

/-- API world for the CID-mismatch run. -/
def apiW5 : ApiModel := ⟨"ABC123", [], [⟨"", ["h"], 1⟩], "B", okExec⟩

/-- Arguments passing the full checksum-suffixed CCID as scope_id. -/
def argsW10 : Args := ⟨"cid", "ABC123", "x"⟩

/-- API world whose CCID is the same full checksum-suffixed string. -/
def apiW10 : ApiModel := ⟨"ABC123", [], [⟨"", ["h"], 1⟩], "B", okExec⟩

/-! ### Resolver lemmas -/

theorem getLast?_cons_or {α : Type} (a : α) (l : List α) :
    (a :: l).getLast? = match l.getLast? with | some b => some b | none => some a := by
  cases l with
  | nil => rfl
  | cons b t =>
    rw [List.getLast?_cons_cons]
    cases h : (b :: t).getLast? with
    | none => exact absurd (List.getLast?_eq_none_iff.mp h) (by simp)
    | some c => rfl

theorem foldl_resolve (hash : String) :
    ∀ (l : List PutFile) (acc : Option String),
      l.foldl (fun a f => if hashMatch hash f then some f.name else a) acc
        = match (l.filter (hashMatch hash)).getLast? with
          | some f => some f.name
          | none => acc := by
  intro l
  induction l with
  | nil => intro acc; rfl
  | cons x xs ih =>
    intro acc
    rw [List.foldl_cons, ih, List.filter_cons]
    by_cases hx : hashMatch hash x
    · rw [if_pos hx, if_pos hx, getLast?_cons_or]
      cases h : (xs.filter (hashMatch hash)).getLast? <;> rfl
    · rw [if_neg hx, if_neg hx]

/-- `resolve` returns the name of the last staged file whose hash
matches (case-insensitively), and `none` when no file matches. -/
theorem resolve_eq_getLast (files : List PutFile) (hash : String) :
    resolve files hash = ((files.filter (hashMatch hash)).getLast?).map PutFile.name := by
  rw [resolve, foldl_resolve]
  cases h : (files.filter (hashMatch hash)).getLast? <;> rfl

theorem resolve_isSome_eq_any (files : List PutFile) (hash : String) :
    (resolve files hash).isSome = files.any (hashMatch hash) := by
  rw [resolve_eq_getLast, Option.isSome_map']
  cases hA : files.any (hashMatch hash) with
  | false =>
    have : files.filter (hashMatch hash) = [] := by
      rw [List.filter_eq_nil_iff]
      intro a ha hpa
      have : files.any (hashMatch hash) = true := List.any_eq_true.mpr ⟨a, ha, hpa⟩
      simp [hA] at this
    simp [this]
  | true =>
    have hne : files.filter (hashMatch hash) ≠ [] := by
      obtain ⟨a, ha, hpa⟩ := List.any_eq_true.mp hA
      intro hnil
      exact (List.filter_eq_nil_iff.mp hnil a ha) hpa
    simpa using List.getLast?_isSome.mpr hne

theorem resolve_eq_none_of_no_match (files : List PutFile) (hash : String)
    (h : files.any (hashMatch hash) = false) : resolve files hash = none := by
  have := resolve_isSome_eq_any files hash
  rw [h] at this
  exact Option.not_isSome_iff_eq_none.mp (by simp [this])

/-! ### Sequencer lemmas -/

/-- The straight-line command block of lines 199-255 is the guarded
sequencer run over the fixed command list. -/
theorem batchRun_eq_runSeq (f : String) (now : Timestamp) (exec : Nat → Resp) :
    batchRun f now exec = runSeq exec (specSeq f now) 0 := by
  by_cases hf : strLower f = "hosts" <;>
    simp only [batchRun, tailSteps, specSeq, hf, ne_eq, not_true_eq_false, not_false_iff,
      if_true, if_false, ite_true, ite_false, List.cons_append, List.nil_append,
      List.append_nil, runSeq] <;>
    split_ifs <;> rfl

theorem runSeq_first_fail (exec : Nat → Resp) :
    ∀ (l : List Cmd) (n i : Nat),
      (∀ j, j < n → (exec (i + j)).status_code = 201) →
      (exec (i + n)).status_code ≠ 201 →
      n < l.length →
      runSeq exec l i = (l.take (n + 1), some (errMsg (exec (i + n)))) := by
  intro l
  induction l with
  | nil => intro n i _ _ hn; simp at hn
  | cons c cs ih =>
    intro n i h1 h2 hn
    cases n with
    | zero =>
      have h2' : (exec i).status_code ≠ 201 := by simpa using h2
      simp [runSeq, h2']
    | succ m =>
      have h0 : (exec i).status_code = 201 := by simpa using h1 0 (Nat.succ_pos m)
      have ihm := ih m (i + 1)
        (fun j hj => by
          have := h1 (j + 1) (Nat.succ_lt_succ hj)
          simpa [Nat.add_assoc, Nat.add_comm 1 j] using this)
        (by
          have : i + 1 + m = i + (m + 1) := by omega
          rw [this]; exact h2)
        (by simpa using Nat.lt_of_succ_lt_succ hn)
      have harg : i + 1 + m = i + (m + 1) := by omega
      rw [harg] at ihm
      simp [runSeq, h0, ihm]

theorem runSeq_all_ok (exec : Nat → Resp) :
    ∀ (l : List Cmd) (i : Nat),
      (∀ j, j < l.length → (exec (i + j)).status_code = 201) →
      runSeq exec l i = (l, none) := by
  intro l
  induction l with
  | nil => intro i _; rfl
  | cons c cs ih =>
    intro i h
    have h0 : (exec i).status_code = 201 := by simpa using h 0 (Nat.succ_pos _)
    have ihc := ih (i + 1) (fun j hj => by
      have := h (j + 1) (by simpa using Nat.succ_lt_succ hj)
      simpa [Nat.add_assoc, Nat.add_comm 1 j] using this)
    simp [runSeq, h0, ihc]

/-! ### Pagination lemmas -/

theorem sumLen_nil : sumLen [] = 0 := rfl

theorem sumLen_cons (p : Page) (l : List Page) :
    sumLen (p :: l) = p.resources.length + sumLen l := by
  simp [sumLen]

theorem runEnum_goodServe (T : Nat) :
    ∀ (pages : List Page) (done : Nat) (acc : List String) (off : String),
      acc.length = done → done < T → goodServe T done pages = true →
      ∃ hs reqs, runEnum pages off acc = some (hs, reqs) ∧ hs.length = T ∧
        reqs.length = (T - done + (batchSize - 1)) / batchSize ∧
        ∀ r ∈ reqs, r.limit = batchSize := by
  intro pages
  induction pages with
  | nil => intro done acc off _ _ hg; simp [goodServe] at hg
  | cons p rest ih =>
    intro done acc off hacc hdone hg
    simp only [goodServe, Bool.and_eq_true, beq_iff_eq, Bool.or_eq_true,
      decide_eq_true_eq] at hg
    obtain ⟨⟨htot, hlen⟩, hrest⟩ := hg
    by_cases hle : T - done ≤ batchSize
    · have hmin : min batchSize (T - done) = T - done := Nat.min_eq_right hle
      have hacc' : (acc ++ p.resources).length = T := by
        rw [List.length_append, hacc, hlen, hmin]; omega
      have hcond : p.total ≤ (acc ++ p.resources).length := by
        rw [htot, hacc']
      refine ⟨acc ++ p.resources, [⟨off, batchSize⟩], ?_, hacc', ?_, ?_⟩
      · simp only [runEnum]
        rw [if_pos hcond]
      · have h1 : 1 ≤ T - done := by omega
        simp only [List.length_singleton, batchSize] at *
        omega
      · intro r hr
        simp only [List.mem_singleton] at hr
        rw [hr]
    · have hmin : min batchSize (T - done) = batchSize :=
        Nat.min_eq_left (Nat.le_of_not_le hle)
      have hacc' : (acc ++ p.resources).length = done + batchSize := by
        rw [List.length_append, hacc, hlen, hmin]
      have hdone' : done + batchSize < T := by
        have : batchSize < T - done := Nat.lt_of_not_le hle
        omega
      have hcond : ¬ p.total ≤ (acc ++ p.resources).length := by
        rw [htot, hacc']; omega
      have hrest' : goodServe T (done + p.resources.length) rest = true := by
        rcases hrest with h | h
        · exfalso; rw [hlen, hmin] at h; omega
        · exact h
      rw [hlen, hmin] at hrest'
      obtain ⟨hs, reqs, heq, hhs, hcount, hlim⟩ :=
        ih (done + batchSize) (acc ++ p.resources) p.offset hacc' hdone' hrest'
      refine ⟨hs, ⟨off, batchSize⟩ :: reqs, ?_, hhs, ?_, ?_⟩
      · simp only [runEnum]
        rw [if_neg hcond, heq]
      · simp only [List.length_cons, hcount, batchSize] at *
        omega
      · intro r hr
        rcases List.mem_cons.mp hr with h | h
        · rw [h]
        · exact hlim r h

theorem runEnum_stops (T : Nat) :
    ∀ (pages : List Page) (acc : List String) (off : String),
      (∀ p ∈ pages, p.total = T) →
      (∀ p ∈ pages, p.resources ≠ []) →
      acc.length < T →
      T ≤ acc.length + pages.length →
      ∃ hs reqs, runEnum pages off acc = some (hs, reqs) ∧
        1 ≤ reqs.length ∧ reqs.length ≤ pages.length ∧
        hs.length = acc.length + sumLen (pages.take reqs.length) ∧
        T ≤ acc.length + sumLen (pages.take reqs.length) ∧
        ∀ j, 1 ≤ j → j < reqs.length → acc.length + sumLen (pages.take j) < T := by
  intro pages
  induction pages with
  | nil => intro acc off _ _ hlt hge; simp at hge; omega
  | cons p rest ih =>
    intro acc off hT hne hlt hge
    have htot : p.total = T := hT p (List.mem_cons_self p rest)
    have hplen : 1 ≤ p.resources.length :=
      List.length_pos.mpr (hne p (List.mem_cons_self p rest))
    by_cases hstop : p.total ≤ (acc ++ p.resources).length
    · refine ⟨acc ++ p.resources, [⟨off, batchSize⟩], ?_, ?_, ?_, ?_, ?_, ?_⟩
      · simp only [runEnum]; rw [if_pos hstop]
      · simp
      · simp
      · simp [sumLen_cons, sumLen_nil, List.length_append]
      · rw [htot] at hstop
        simpa [sumLen_cons, sumLen_nil, List.length_append] using hstop
      · intro j hj1 hj2
        simp at hj2
        omega
    · have hlt' : (acc ++ p.resources).length < T := by
        rw [htot] at hstop; omega
      have hge' : T ≤ (acc ++ p.resources).length + rest.length := by
        rw [List.length_append]
        simp only [List.length_cons] at hge
        omega
      obtain ⟨hs, reqs, heq, h1, h2, h3, h4, h5⟩ :=
        ih (acc ++ p.resources) p.offset
          (fun q hq => hT q (List.mem_cons_of_mem p hq))
          (fun q hq => hne q (List.mem_cons_of_mem p hq)) hlt' hge'
      refine ⟨hs, ⟨off, batchSize⟩ :: reqs, ?_, ?_, ?_, ?_, ?_, ?_⟩
      · simp only [runEnum]; rw [if_neg hstop, heq]
      · simp
      · simpa using Nat.succ_le_succ h2
      · rw [List.length_append] at h3
        rw [List.length_cons, List.take_succ_cons, sumLen_cons]
        omega
      · rw [List.length_append] at h4
        rw [List.length_cons, List.take_succ_cons, sumLen_cons]
        omega
      · intro j hj1 hjk
        obtain ⟨m, rfl⟩ : ∃ m, j = m + 1 := ⟨j - 1, by omega⟩
        rw [List.take_succ_cons, sumLen_cons]
        cases m with
        | zero =>
          rw [List.length_append] at hlt'
          simpa [sumLen_nil] using hlt'
        | succ k =>
          have := h5 (k + 1) (by omega) (by simp at hjk; omega)
          rw [List.length_append] at this
          omega

/-! ### Trace and abort helpers -/

theorem batchRun_trace_one (f : String) (now : Timestamp) (exec : Nat → Resp)
    (h0 : (exec 0).status_code = 201) :
    ((batchRun f now exec).1)[1]? = some (mvBackupCmd now) := by
  simp only [batchRun, tailSteps, h0, if_true]
  split_ifs <;> rfl

theorem batchRun_trace_two (f : String) (now : Timestamp) (exec : Nat → Resp)
    (h0 : (exec 0).status_code = 201) (h1 : (exec 1).status_code = 201) :
    ((batchRun f now exec).1)[2]? = some (putCmd f) := by
  simp only [batchRun, tailSteps, h0, h1, if_true]
  split_ifs <;> rfl

theorem mainRun_cid_abort (args : Args) (api : ApiModel) (now : Timestamp)
    (hscope : strLower args.scope = "cid")
    (hmm : strLower args.scope_id ≠ strLower (cidTrunc api.ccid)) :
    mainRun args api now = ([], some (cidMismatchMsg args.scope_id (cidTrunc api.ccid))) := by
  have hc : cidCheck args.scope args.scope_id api.ccid = true := by
    simp [cidCheck, hscope, hmm]
  simp [mainRun, hc]

/-! ### Claims -/

/-- C1 (amended): for a run of the host enumerator over a page sequence
with reported total `T ≥ 1` in which every page returns exactly
`min 5000 remaining` host identifiers, the enumerator accumulates
exactly `T` identifiers and issues exactly `⌈T/5000⌉` page requests,
each with limit 5000.  (As stated the claim fails at `T = 0`: the loop
body always runs at least once, see the counterexample.) -/
theorem c1_enumerator_total_and_requests (T : Nat) (pages : List Page)
    (hT : 1 ≤ T) (hg : goodServe T 0 pages = true) :
    ∃ hs reqs, runEnum pages "" [] = some (hs, reqs) ∧ hs.length = T ∧
      reqs.length = (T + (batchSize - 1)) / batchSize ∧
      ∀ r ∈ reqs, r.limit = 5000 := by
  obtain ⟨hs, reqs, heq, hlen, hcount, hlim⟩ :=
    runEnum_goodServe T pages 0 [] "" rfl hT hg
  exact ⟨hs, reqs, heq, hlen, by simpa using hcount, fun r hr => hlim r hr⟩

/-- C1 witness: a single page of 2 ids with total 2 yields exactly 2
identifiers in 1 = ⌈2/5000⌉ request of limit 5000. -/
theorem c1_enumerator_total_and_requests_witness :
    1 ≤ 2 ∧ goodServe 2 0 pagesW1 = true ∧
    (∃ hs reqs, runEnum pagesW1 "" [] = some (hs, reqs) ∧ hs.length = 2 ∧
      reqs.length = (2 + (batchSize - 1)) / batchSize ∧
      ∀ r ∈ reqs, r.limit = 5000) :=
  ⟨by decide, by decide,
    c1_enumerator_total_and_requests 2 pagesW1 (by decide) (by decide)⟩

/-- C1 counterexample: a run over the single empty inventory page with
reported total `T = 0` accumulates 0 identifiers but issues 1 page
request, not `⌈0/5000⌉ = 0` as the claim states. -/
theorem c1_counterexample :
    runEnum [⟨"", [], 0⟩] "" [] = some ([], [⟨"", 5000⟩]) ∧
    (0 + (batchSize - 1)) / batchSize = 0 ∧
    ([(⟨"", 5000⟩ : PageReq)].length : Nat) ≠ 0 := by
  refine ⟨rfl, by decide, by decide⟩

/-- C2: over any page sequence in which every page reports total `T` and
returns at least one host id (the remaining count decreases each call)
and which is long enough to serve the loop, the pagination loop
terminates, and it stops exactly at the first iteration at which the
accumulated identifier count reaches `T` (so it never makes even one
call beyond that point). -/
theorem c2_pagination_stops_at_first (T : Nat) (pages : List Page)
    (hT : ∀ p ∈ pages, p.total = T)
    (hne : ∀ p ∈ pages, p.resources ≠ [])
    (hpages : pages ≠ [])
    (hlen : T ≤ pages.length) :
    ∃ hs reqs, runEnum pages "" [] = some (hs, reqs) ∧
      1 ≤ reqs.length ∧ reqs.length ≤ pages.length ∧
      T ≤ sumLen (pages.take reqs.length) ∧
      ∀ j, 1 ≤ j → j < reqs.length → sumLen (pages.take j) < T := by
  cases T with
  | zero =>
    cases pages with
    | nil => exact absurd rfl hpages
    | cons p rest =>
      refine ⟨[] ++ p.resources, [⟨"", batchSize⟩], ?_, by simp, by simp, by simp, ?_⟩
      · simp only [runEnum]
        rw [if_pos (Nat.le_trans (Nat.le_of_eq (hT p (List.mem_cons_self p rest)))
          (Nat.zero_le _))]
      · intro j hj1 hj2
        simp at hj2
        omega
  | succ T' =>
    obtain ⟨hs, reqs, heq, h1, h2, _, h4, h5⟩ :=
      runEnum_stops (T' + 1) pages [] "" hT hne (by simp) (by simpa using hlen)
    exact ⟨hs, reqs, heq, h1, h2, by simpa using h4,
      fun j hj1 hj2 => by simpa using h5 j hj1 hj2⟩

/-- C2 witness: two one-id pages with total 2 terminate in exactly 2
requests, the first iteration at which 2 ids have accumulated. -/
theorem c2_pagination_stops_at_first_witness :
    (∀ p ∈ pagesW2, p.total = 2) ∧ (∀ p ∈ pagesW2, p.resources ≠ []) ∧
    pagesW2 ≠ [] ∧ 2 ≤ pagesW2.length ∧
    (∃ hs reqs, runEnum pagesW2 "" [] = some (hs, reqs) ∧
      1 ≤ reqs.length ∧ reqs.length ≤ pagesW2.length ∧
      2 ≤ sumLen (pagesW2.take reqs.length) ∧
      ∀ j, 1 ≤ j → j < reqs.length → sumLen (pagesW2.take j) < 2) :=
  ⟨by decide, by decide, by decide, by decide,
    c2_pagination_stops_at_first 2 pagesW2 (by decide) (by decide) (by decide) (by decide)⟩

/-- C3: the batch commands are issued in the fixed order cd,
mv-to-backup, put, optional mv-into-place, ICACLS grant, flushdns (the
list `specSeq`); when the executor first returns a non-201 status on
call `n` (0-based), the trace of issued commands is exactly the first
`n + 1` commands of that fixed order — so exactly `n + 1` calls are
made, no later step is attempted — and the run ends fatally. -/
theorem c3_halt_at_first_failure (f : String) (now : Timestamp) (exec : Nat → Resp)
    (n : Nat)
    (h1 : ∀ j, j < n → (exec j).status_code = 201)
    (h2 : (exec n).status_code ≠ 201)
    (hn : n < (specSeq f now).length) :
    batchRun f now exec = ((specSeq f now).take (n + 1), some (errMsg (exec n))) ∧
    (batchRun f now exec).1.length = n + 1 := by
  have key := runSeq_first_fail exec (specSeq f now) n 0
    (fun j hj => by simpa using h1 j hj) (by simpa using h2) hn
  rw [batchRun_eq_runSeq, key]
  refine ⟨by simp, ?_⟩
  simp only [List.length_take]
  omega

/-- C3 witness: with a 500 on the third call (index 2), exactly the
first three commands are issued and the run aborts. -/
theorem c3_halt_at_first_failure_witness :
    (failExec 0).status_code = 201 ∧ (failExec 1).status_code = 201 ∧
    (failExec 2).status_code ≠ 201 ∧
    (batchRun "newhosts" t0 failExec
        = ((specSeq "newhosts" t0).take 3, some (errMsg (failExec 2))) ∧
      (batchRun "newhosts" t0 failExec).1.length = 3) :=
  ⟨by decide, by decide, by decide,
    c3_halt_at_first_failure "newhosts" t0 failExec 2 (by decide) (by decide) (by decide)⟩

/-- C4: the resolver finds a staged file exactly when some file's sha256
equals the argument case-insensitively; what it returns is always the
name of a (the last) matching staged file; and when zero staged files
match, the run aborts fatally with the descriptive not-found message
with an empty action trace — before any page request, session
initiation or batch command. -/
theorem c4_file_resolution (files : List PutFile) (hash : String)
    (args : Args) (api : ApiModel) (now : Timestamp)
    (hcid : cidCheck args.scope args.scope_id api.ccid = false)
    (hhash : args.hosts_file = hash) (hpf : api.putFiles = files) :
    (resolve files hash).isSome
        = files.any (fun f => strLower f.sha256 == strLower hash) ∧
    resolve files hash
        = ((files.filter (fun f => strLower f.sha256 == strLower hash)).getLast?).map
            PutFile.name ∧
    (files.any (fun f => strLower f.sha256 == strLower hash) = false →
      mainRun args api now = ([], some (hashNotFoundMsg hash))) := by
  refine ⟨resolve_isSome_eq_any files hash, resolve_eq_getLast files hash, ?_⟩
  intro hz
  have hres : resolve api.putFiles hash = none := by
    rw [hpf]
    exact resolve_eq_none_of_no_match files hash hz
  simp [mainRun, hcid, hhash, hres]

/-- C4 witness: with one staged file of hash CAFE and argument beef, no
file matches and the run aborts with the not-found message and an empty
trace. -/
theorem c4_file_resolution_witness :
    cidCheck "cid" "abc" "ABC123" = false ∧
    (resolve filesW4 "beef").isSome
        = filesW4.any (fun f => strLower f.sha256 == strLower "beef") ∧
    resolve filesW4 "beef"
        = ((filesW4.filter (fun f => strLower f.sha256 == strLower "beef")).getLast?).map
            PutFile.name ∧
    mainRun argsW4 apiW4 t0 = ([], some (hashNotFoundMsg "beef")) :=
  ⟨by decide,
    (c4_file_resolution filesW4 "beef" argsW4 apiW4 t0 (by decide) rfl rfl).1,
    (c4_file_resolution filesW4 "beef" argsW4 apiW4 t0 (by decide) rfl rfl).2.1,
    (c4_file_resolution filesW4 "beef" argsW4 apiW4 t0 (by decide) rfl rfl).2.2 (by decide)⟩

/-- C5: with scope `cid` and a scope_id that differs case-insensitively
from the (truncated) authenticated tenant identifier, the run aborts
fatally with the mismatch message and an empty action trace — before
any host-enumeration API call. -/
theorem c5_cid_mismatch_aborts (args : Args) (api : ApiModel) (now : Timestamp)
    (hscope : args.scope = "cid")
    (hmm : strLower args.scope_id ≠ strLower (cidTrunc api.ccid)) :
    mainRun args api now = ([], some (cidMismatchMsg args.scope_id (cidTrunc api.ccid))) := by
  apply mainRun_cid_abort
  · rw [hscope]; rfl
  · exact hmm

/-- C5 witness: scope_id WRONG against CCID ABC123 (tenant id ABC)
aborts with the mismatch message and no API activity in the trace. -/
theorem c5_cid_mismatch_aborts_witness :
    strLower "WRONG" ≠ strLower (cidTrunc "ABC123") ∧
    mainRun argsW5 apiW5 t0
      = ([], some (cidMismatchMsg "WRONG" (cidTrunc "ABC123"))) :=
  ⟨by decide, c5_cid_mismatch_aborts argsW5 apiW5 t0 rfl (by decide)⟩

/-- C6: in every run reaching the backup step (the cd command got its
201), the second issued command is the backup rename, whose command
string is `mv hosts hosts.` followed by the UTC timestamp formatted
`YYYY-MM-DD-HH-MM-SS` followed by `.backup`. -/
theorem c6_backup_command_string (f : String) (now : Timestamp) (exec : Nat → Resp)
    (h0 : (exec 0).status_code = 201) :
    ((batchRun f now exec).1)[1]? = some (mvBackupCmd now) ∧
    (mvBackupCmd now).command_string
      = "mv hosts hosts." ++ fmtTimestamp now ++ ".backup" := by
  refine ⟨batchRun_trace_one f now exec h0, ?_⟩
  show "mv hosts hosts." ++ (fmtTimestamp now ++ ".backup") = _
  rw [String.append_assoc]

/-- C6 witness: in a fully successful run at the fixed timestamp the
second command is `mv hosts hosts.2026-10-12-00-00-00.backup`. -/
theorem c6_backup_command_string_witness :
    (okExec 0).status_code = 201 ∧
    (((batchRun "hosts" t0 okExec).1)[1]? = some (mvBackupCmd t0) ∧
      (mvBackupCmd t0).command_string
        = "mv hosts hosts." ++ fmtTimestamp t0 ++ ".backup") :=
  ⟨by decide, c6_backup_command_string "hosts" t0 okExec (by decide)⟩

/-- C7 counterexample: for the resolved name `HOSTS` — which differs
from the canonical target name `hosts` as a string — a fully successful
run issues no `mv HOSTS hosts` command at all, because the code compares
case-insensitively (`filename.lower() != "hosts"`). -/
theorem c7_counterexample :
    ("HOSTS" : String) ≠ "hosts" ∧
    batchRun "HOSTS" t0 okExec
      = ([cdCmd, mvBackupCmd t0, putCmd "HOSTS", icaclsCmd, flushDnsCmd], none) ∧
    mvInPlaceCmd "HOSTS" ∉ (batchRun "HOSTS" t0 okExec).1 :=
  ⟨by decide, by decide, by decide⟩

/-- C7 (amended): in every fully successful run, the additional rename
`mv <filename> hosts` is issued if and only if the resolved staged-file
name differs case-insensitively from `hosts` (Python
`filename.lower() != "hosts"`), and when issued it sits after the
upload command and before the ICACLS and DNS-flush commands. -/
theorem c7_rename_iff_ci_differs (f : String) (now : Timestamp) (exec : Nat → Resp)
    (hok : ∀ j, j < (specSeq f now).length → (exec j).status_code = 201) :
    batchRun f now exec
      = ([cdCmd, mvBackupCmd now, putCmd f]
          ++ (if strLower f ≠ "hosts" then [mvInPlaceCmd f] else [])
          ++ [icaclsCmd, flushDnsCmd], none) := by
  rw [batchRun_eq_runSeq,
    runSeq_all_ok exec (specSeq f now) 0 (fun j hj => by simpa using hok j hj)]
  rfl

/-- C7 amended-claim witness: for the name `newhosts` (differing from
`hosts` even case-insensitively) the rename into place is issued,
between put and ICACLS. -/
theorem c7_rename_iff_ci_differs_witness :
    (okExec 0).status_code = 201 ∧
    batchRun "newhosts" t0 okExec
      = ([cdCmd, mvBackupCmd t0, putCmd "newhosts"]
          ++ (if strLower "newhosts" ≠ "hosts" then [mvInPlaceCmd "newhosts"] else [])
          ++ [icaclsCmd, flushDnsCmd], none) :=
  ⟨by decide, c7_rename_iff_ci_differs "newhosts" t0 okExec (by decide)⟩

/-- C8: when the first non-success status arrives (call `n`, 0-based),
the run ends fatally with the message carrying the raw status code and
the response body, and the failing command was issued exactly once with
nothing after it (the trace has exactly `n + 1` commands). -/
theorem c8_fatal_error_message (f : String) (now : Timestamp) (exec : Nat → Resp)
    (n : Nat)
    (h1 : ∀ j, j < n → (exec j).status_code = 201)
    (h2 : (exec n).status_code ≠ 201)
    (hn : n < (specSeq f now).length) :
    (batchRun f now exec).2
        = some ("Error, Response: " ++ toString (exec n).status_code
            ++ " - " ++ (exec n).text) ∧
    (batchRun f now exec).1.length = n + 1 := by
  have key := runSeq_first_fail exec (specSeq f now) n 0
    (fun j hj => by simpa using h1 j hj) (by simpa using h2) hn
  rw [batchRun_eq_runSeq, key]
  refine ⟨by simp [errMsg], ?_⟩
  simp only [List.length_take]
  omega

/-- C8 witness: the 500/`boom` failure on the third call yields the
fatal message `Error, Response: 500 - boom` after exactly 3 issued
commands. -/
theorem c8_fatal_error_message_witness :
    (failExec 2).status_code ≠ 201 ∧
    ((batchRun "newhosts" t0 failExec).2
        = some ("Error, Response: " ++ toString (failExec 2).status_code
            ++ " - " ++ (failExec 2).text) ∧
      (batchRun "newhosts" t0 failExec).1.length = 3) :=
  ⟨by decide,
    c8_fatal_error_message "newhosts" t0 failExec 2 (by decide) (by decide) (by decide)⟩

/-- C9: when several staged files match the hash case-insensitively
(the matches being `l₁ ++ [f₂]` in list order), the resolver ends up
with the last match `f₂` and the put command of the run uses `f₂`'s
name. -/
theorem c9_last_match_wins (files : List PutFile) (hash : String) (f₂ : PutFile)
    (l₁ : List PutFile) (now : Timestamp) (exec : Nat → Resp)
    (hsplit : files.filter (fun f => strLower f.sha256 == strLower hash) = l₁ ++ [f₂])
    (h0 : (exec 0).status_code = 201) (h1 : (exec 1).status_code = 201) :
    resolve files hash = some f₂.name ∧
    ((batchRun f₂.name now exec).1)[2]? = some (putCmd f₂.name) := by
  refine ⟨?_, batchRun_trace_two f₂.name now exec h0 h1⟩
  rw [resolve_eq_getLast]
  have hs : files.filter (hashMatch hash) = l₁ ++ [f₂] := hsplit
  rw [hs, List.getLast?_concat]
  rfl

/-- C9 witness: hashes AA and aa both match Aa; the resolver returns the
second file's name f2, and the put command is `put f2`. -/
theorem c9_last_match_wins_witness :
    filesW9.filter (fun f => strLower f.sha256 == strLower "Aa")
        = [(⟨"AA", "f1"⟩ : PutFile)] ++ [(⟨"aa", "f2"⟩ : PutFile)] ∧
    (resolve filesW9 "Aa" = some "f2" ∧
      ((batchRun "f2" t0 okExec).1)[2]? = some (putCmd "f2")) :=
  ⟨by decide,
    c9_last_match_wins filesW9 "Aa" ⟨"aa", "f2"⟩ [⟨"AA", "f1"⟩] t0 okExec
      (by decide) (by decide) (by decide)⟩

/-- C10: the tenant check compares scope_id against the API CCID with
its last three characters removed, both lowercased.  Supplying the full
checksum-suffixed CCID as scope_id therefore aborts the run (the
lowered strings have different lengths), while supplying the truncated
identifier in any letter case passes the check. -/
theorem c10_cid_truncation (args : Args) (api : ApiModel) (now : Timestamp) (s : String)
    (hscope : args.scope = "cid") (hfull : args.scope_id = api.ccid)
    (hne : api.ccid ≠ "")
    (hs : strLower s = strLower (cidTrunc api.ccid)) :
    mainRun args api now
      = ([], some (cidMismatchMsg args.scope_id (cidTrunc api.ccid))) ∧
    cidCheck "cid" s api.ccid = false := by
  have hd : api.ccid.data ≠ [] := by
    intro h
    apply hne
    have he : api.ccid = String.mk api.ccid.data := rfl
    rw [he, h]
  have hpos : 0 < api.ccid.data.length := List.length_pos.mpr hd
  have hlen1 : (strLower api.ccid).data.length = api.ccid.data.length := by
    simp [strLower]
  have hlen2 : (strLower (cidTrunc api.ccid)).data.length
      = api.ccid.data.length - 3 := by
    simp [strLower, cidTrunc]
  have hmm : strLower args.scope_id ≠ strLower (cidTrunc api.ccid) := by
    rw [hfull]
    intro h
    have hcong := congrArg (fun t : String => t.data.length) h
    simp only at hcong
    rw [hlen1, hlen2] at hcong
    omega
  refine ⟨mainRun_cid_abort args api now (by rw [hscope]; rfl) hmm, ?_⟩
  simp [cidCheck, hs]

/-- C10 witness: with CCID ABC123, scope_id ABC123 (the full id) aborts,
while the truncated id in lowercase, abc, passes the check. -/
theorem c10_cid_truncation_witness :
    ("ABC123" : String) ≠ "" ∧
    strLower "abc" = strLower (cidTrunc "ABC123") ∧
    (mainRun argsW10 apiW10 t0
        = ([], some (cidMismatchMsg "ABC123" (cidTrunc "ABC123"))) ∧
      cidCheck "cid" "abc" "ABC123" = false) :=
  ⟨by decide, by decide,
    c10_cid_truncation argsW10 apiW10 t0 "abc" rfl rfl (by decide) (by decide)⟩

end PushHosts
